import Mathlib

/-!
Shallow embedding of the shape-aware module composition layer in
`src/neuralnet_pytorch/layers/abstract.py`: shapes with dynamic markers,
the `Lambda` / `_Wrapper` shape-inference rule, the `Sequential` composer,
the fan-out / fan-in composers, and the parameter-introspection and
save/load capabilities of `_LayerMethod`.
-/

namespace NNT

/-- One entry of a declared shape: `some n` is a fixed dimension size,
`none` is the dynamic marker (Python `None` inside a shape tuple). -/
abbrev Dim := Option Nat

/-- A declared shape: an ordered list of dimension entries. A whole shape
may itself be unknown, written `Option Shape` at use sites (Python `None`
in place of the tuple). -/
abbrev Shape := List Dim

/-- Shape-level model of a `Lambda` (the `_Wrapper` classes produced by
`wrapper` carry the same three fields: `input_shape`, `output_shape_tmp`
and the wrapped computation). `func` is the shape semantics of the wrapped
computation on the zero-filled scratch tensor: the shape of the tensor the
forward pass returns, as a function of the scratch tensor's shape. -/
structure LambdaM where
  func : List Nat → List Nat
  input_shape : Option Shape
  output_shape_tmp : Option Shape

/-- Source list `[k for k in range(len(self.input_shape)) if self.input_shape[k] is None]`:
the indices of the declared input shape holding the dynamic marker. -/
def noneIndices (ishape : Shape) : List Nat :=
  (List.range ishape.length).filter (fun k => (ishape.getD k (some 1)).isNone)

/-- Source list `[1 if s is None else s for s in self.input_shape]`: the scratch tensor's
shape, every dynamic dimension replaced by 1. -/
def scratchShape (ishape : Shape) : List Nat :=
  ishape.map (fun s => s.getD 1)

/-- Python list item assignment `output_shape[k] = None`: raises `IndexError`
when `k` is out of range. -/
def pySetNone (l : List Dim) (k : Nat) : Except String (List Dim) :=
  if k < l.length then .ok (l.set k none) else .error "IndexError"

/-- Source `Lambda.output_shape` (abstract.py lines 487 to 508); the `output_shape`
of `_Wrapper` (lines 400 to 421) is textually identical. The outer `Except`
models a raised exception, the inner `Option Shape` the returned value with
`none` for unknown. Device placement of the scratch tensor does not affect
the computed shape and is elided. -/
def LambdaM.output_shape (m : LambdaM) : Except String (Option Shape) :=
  match m.input_shape, m.output_shape_tmp with
  | none, none => .ok none
  | _, some s => .ok (some s)
  | some ishape, none =>
    let out := m.func (scratchShape ishape)
    ((noneIndices ishape).foldlM pySetNone (out.map some)).map (fun r => some r)

/-- Whether index `k` is a dynamic/unknown dimension of the declared input
shape (false beyond the rank of `ishape`). -/
def isDynAt (ishape : Shape) (k : Nat) : Bool :=
  (ishape.getD k (some 1)).isNone

/-- Stated from the spec's words (section 4.3): take the executed result's
shape and, for every dimension index that was dynamic in the input shape,
overwrite the corresponding output dimension with the dynamic marker. -/
def specOverwrite (ishape : Shape) (out : List Nat) : Shape :=
  (List.range out.length).map (fun k => if isDynAt ishape k then none else some (out.getD k 0))

/-- Stated from the spec's words (section 4.3): the full shape-inference
rule. Both declared shapes unknown gives unknown; a declared output shape is
returned verbatim with no execution; otherwise the module runs on the
scratch tensor and the result's shape is overwritten at the input's dynamic
indices (each such index must exist in the result's shape). -/
def specOutputShape (m : LambdaM) : Except String (Option Shape) :=
  match m.input_shape, m.output_shape_tmp with
  | none, none => .ok none
  | _, some s => .ok (some s)
  | some ishape, none =>
    let out := m.func (scratchShape ishape)
    if (noneIndices ishape).all (fun k => k < out.length) then
      .ok (some (specOverwrite ishape out))
    else .error "IndexError"

/-- A registered parameter tensor as the engine enumerates it: its
gradient-tracking flag and (a stand-in for) its numeric content. -/
structure Param where
  requires_grad : Bool
  value : Int
deriving DecidableEq

/-- A module tree as seen by the parameter-enumeration capability: the
parameters the module owns directly, the buffers it owns directly, and its
child subtrees in registration order. -/
inductive PMod where
  | node (own_params : List Param) (own_buffers : List Param) (children : List PMod)

/-- The parameters a module owns directly (buffers excluded). -/
def PMod.own_params : PMod → List Param
  | .node ps _ _ => ps

/-- The buffers a module owns directly. -/
def PMod.own_buffers : PMod → List Param
  | .node _ bs _ => bs

/-- The module's direct children. -/
def PMod.children : PMod → List PMod
  | .node _ _ cs => cs

mutual
/-- The engine's `Module.parameters()` enumeration that
`_LayerMethod.trainable` iterates: the module's own registered parameters
followed, depth first in registration order, by every descendant's (buffers
are not parameters and are not yielded). -/
def PMod.parameters : PMod → List Param
  | .node ps _ cs => ps ++ paramsOfList cs

/-- Parameters of a list of subtrees, concatenated in order. -/
def paramsOfList : List PMod → List Param
  | [] => []
  | c :: cs => c.parameters ++ paramsOfList cs
end

/-- Source `_LayerMethod.trainable` (abstract.py lines 112 to 122):
`tuple(p for p in self.parameters() if p.requires_grad)`. -/
def PMod.trainable (m : PMod) : List Param :=
  m.parameters.filter (fun p => p.requires_grad)

/-- A parameter tree with one trainable parameter, used to probe `trainable`
on a parent that owns no parameters of its own. -/
def leafParam : Param := ⟨true, 7⟩

/-- A child module directly owning `leafParam`. -/
def childMod : PMod := .node [leafParam] [] []

/-- A parent module owning no parameters itself, with `childMod` as its only
child. -/
def parentMod : PMod := .node [] [] [childMod]

/-- Source `MultiSingleInputModule` as a holder of children (which may own
arbitrarily many parameters): the class overrides `params`, `trainable` and
`regularizable` to return `tuple()` (abstract.py lines 244 to 254).
`MultiMultiInputModule` subclasses it without touching these overrides. -/
structure MSIM where
  children : List PMod

/-- Source `MultiSingleInputModule.params`: `return tuple()`. -/
def MSIM.params (_ : MSIM) : List Param := []

/-- Source `MultiSingleInputModule.trainable`: `return tuple()`. -/
def MSIM.trainable (_ : MSIM) : List Param := []

/-- Source `MultiSingleInputModule.regularizable`: `return tuple()`. -/
def MSIM.regularizable (_ : MSIM) : List Param := []

/-- Source `SingleMultiInputModule` as a holder of its single shared module, whose
`params`, `trainable` and `regularizable` are overridden to `tuple()`
(abstract.py lines 285 to 295). -/
structure SMIM where
  module : PMod

/-- Source `SingleMultiInputModule.params`: `return tuple()`. -/
def SMIM.params (_ : SMIM) : List Param := []

/-- Source `SingleMultiInputModule.trainable`: `return tuple()`. -/
def SMIM.trainable (_ : SMIM) : List Param := []

/-- Source `SingleMultiInputModule.regularizable`: `return tuple()`. -/
def SMIM.regularizable (_ : SMIM) : List Param := []

/-- A child of a `Sequential` composer, reduced to the shape metadata the
slicing and `output_shape` rules read. -/
structure Child where
  input_shape : Option Shape
  output_shape : Option Shape
deriving DecidableEq

/-- A `Sequential` composer: ordered children plus its own declared
`input_shape`. -/
structure SeqM where
  children : List Child
  input_shape : Option Shape
deriving DecidableEq

/-- Source `Sequential.__getitem__` on a slice `[start:stop]` (abstract.py lines
318 to 324), for step 1 and non-negative bounds; Python's
`idx.start if idx.start else 0` maps a missing start to 0. The new composer
holds `modules[start:stop]` and the `input_shape` of `modules[start]`;
`modules[start]` raises `IndexError` when `start` is at or past the end. -/
def SeqM.getitemSlice (s : SeqM) (start stop : Nat) : Except String SeqM :=
  match s.children.drop start with
  | [] => .error "IndexError"
  | c :: _ => .ok { children := (s.children.drop start).take (stop - start), input_shape := c.input_shape }

/-- Source `Sequential.output_shape` (abstract.py lines 331 to 338): `None` when
the composer's own `input_shape` is `None`; the last child's `output_shape`
when there are children; the composer's own `input_shape` otherwise. -/
def SeqM.output_shape (s : SeqM) : Option Shape :=
  match s.input_shape with
  | none => none
  | some _ =>
    match s.children.getLast? with
    | some c => c.output_shape
    | none => s.input_shape

/-- Source `Sequential.forward` (abstract.py lines 326 to 329): the input threads
through the children in order, with the extra positional/keyword arguments
(`κ`) forwarded unchanged to every stage. -/
def seqForward {α κ : Type} (children : List (α → κ → α)) (input : α) (extra : κ) : α :=
  children.foldl (fun acc m => m acc extra) input

/-- A host-memory array as produced by the portable conversion in
`_LayerMethod.save`: shape and numeric content preserved exactly. -/
structure NArr where
  shape : List Nat
  data : List Int
deriving DecidableEq

/-- The concrete class of a module as far as the `params` capability used by
`save` is concerned: either the capability mixin's default `params` is
active, or one of the fan-out/fan-in composer overrides that return
`tuple()` is. -/
inductive MKind where
  | mixin
  | fanComposer
deriving DecidableEq

/-- A module as `save`/`load` see it: its class and the engine's
`state_dict()`, an ordered name-to-tensor mapping covering the parameters
and buffers of the module and its registered children (dotted paths). -/
structure MState where
  kind : MKind
  stateDict : List (String × NArr)
deriving DecidableEq

/-- Modelled from the spec: `utils.bulk_to_numpy` (repository code not under
src/) converts tensors to portable host-memory arrays with shape, dtype and
numeric content preserved exactly (spec sections 4.1 and 6), hence the
identity on this model's arrays. -/
def bulk_to_numpy (ts : List NArr) : List NArr := ts.map id

/-- Source `params` as dynamic dispatch selects it: the mixin default
`tuple(self.state_dict().values())` (`_LayerMethod.params`, abstract.py
lines 103 to 110), unless the module is a fan-out/fan-in composer, whose
override returns `tuple()` (`MultiSingleInputModule.params`, lines 248 to
250, inherited by `MultiMultiInputModule`; `SingleMultiInputModule.params`,
lines 289 to 291). -/
def MState.params (m : MState) : List NArr :=
  match m.kind with
  | .mixin => m.stateDict.map Prod.snd
  | .fanComposer => []

/-- Source `_LayerMethod.save` (abstract.py lines 142 to 154): the mapping
written to the file,
`OrderedDict(zip(self.state_dict().keys(), bulk_to_numpy(self.params)))`,
where `self.params` dispatches to the module's own `params` view and `zip`
truncates to the shorter sequence; `T.save` persists the mapping verbatim
per the spec's persistence contract (section 6). -/
def MState.save (m : MState) : List (String × NArr) :=
  (m.stateDict.map Prod.fst).zip (bulk_to_numpy m.params)

/-- Modelled from the spec: the engine's `load_state_dict` restore step used
by `_LayerMethod.load` fails if names or shapes mismatch — missing keys
included — (spec sections 4.1 and 7) and otherwise installs the mapping's
values as the module's new parameter/buffer values. -/
def loadStateDict (m : MState) (d : List (String × NArr)) : Except String MState :=
  if m.stateDict.map Prod.fst = d.map Prod.fst
      ∧ m.stateDict.map (fun e => e.2.shape) = d.map (fun e => e.2.shape) then
    .ok { m with stateDict := d }
  else .error "load mismatch"

/-- Source `_LayerMethod.load` (abstract.py lines 156 to 171) with `T.load` reading
back exactly what `T.save` wrote: restores the mapping into the module's
store. The `eval`-mode switch does not touch parameter or buffer values and
is elided. -/
def MState.load (m : MState) (file : List (String × NArr)) : Except String MState :=
  loadStateDict m file

/-- An item passed to a fan-out composer's constructor: a module (a function
of its input tensor) or a constant tensor. -/
inductive FanItem (α : Type) where
  | mod (f : α → α)
  | const (t : α)

/-- Construction (abstract.py lines 220 to 238) normalizes a constant tensor
into a `Lambda` that ignores its arguments and returns the constant; module
items are registered as they are. -/
def FanItem.toChild {α : Type} : FanItem α → (α → α)
  | .mod f => f
  | .const t => fun _ => t

/-- Source `MultiSingleInputModule.forward` (abstract.py lines 240 to 242): every
registered child applied to the same input, results collected in
registration (= construction) order. -/
def msiForward {α : Type} (items : List (FanItem α)) (x : α) : List α :=
  items.map (fun it => it.toChild x)

/-- Source `MultiMultiInputModule.forward` (abstract.py lines 265 to 269): children
registered as `module%d` consume the next positional input in order,
children registered as `tensor%d` are invoked with no input; `next` on an
exhausted input iterator raises `StopIteration`, which escapes the call. -/
def mmiForward {α : Type} : List (FanItem α) → List α → Except String (List α)
  | [], _ => .ok []
  | .mod _ :: _, [] => .error "StopIteration"
  | .mod f :: rest, x :: xs => (mmiForward rest xs).map (fun out => f x :: out)
  | .const t :: rest, xs => (mmiForward rest xs).map (fun out => t :: out)

/-- The number of non-constant (module) children of a fan-out composer. -/
def countMods {α : Type} (items : List (FanItem α)) : Nat :=
  items.countP (fun it => match it with | .mod _ => true | .const _ => false)

/-- A wrapped computation unit whose forward pass may read and update the
persisted parameter/buffer store (state type `σ`), at shape level: models a
`_Wrapper` around an arbitrary engine unit, e.g. a normalization layer whose
forward pass updates running statistics. -/
structure WrapperST (σ : Type) where
  input_shape : Option Shape
  output_shape_tmp : Option Shape
  forward : List Nat → σ → List Nat × σ

/-- Source `_Wrapper.output_shape` (abstract.py lines 400 to 421) with the wrapped
unit's persisted state threaded through: the derivation executes
`self(dummy)` on the scratch tensor and keeps whatever state that forward
pass leaves behind (the source restores nothing). Returns the computed
shape (or raised error) together with the state after the derivation. -/
def WrapperST.output_shape {σ : Type} (m : WrapperST σ) (st : σ) : Except String (Option Shape) × σ :=
  match m.input_shape, m.output_shape_tmp with
  | none, none => (.ok none, st)
  | _, some s => (.ok (some s), st)
  | some ishape, none =>
    let res := m.forward (scratchShape ishape) st
    (((noneIndices ishape).foldlM pySetNone (res.1.map some)).map (fun r => some r), res.2)

/-- A wrapped unit (state = a counter standing for running statistics) whose
forward pass increments the counter, as a batch-normalization layer in
training mode would update its running-mean/variance buffers. -/
def statefulWrapper : WrapperST Nat :=
  ⟨some [some 1], none, fun sh n => (sh, n + 1)⟩

/-- A wrapped unit whose forward pass leaves the persisted state untouched. -/
def pureWrapper : WrapperST Nat :=
  ⟨some [none, some 2], none, fun sh n => (sh, n)⟩

/-- A three-child `Sequential` composer with pairwise distinct child shape
metadata, used to exercise slicing and `output_shape`. -/
def seqEx : SeqM :=
  ⟨[⟨some [some 1], some [some 2]⟩, ⟨some [some 2], some [some 3]⟩,
    ⟨some [some 3], some [some 4]⟩], some [some 1]⟩

/-- A mixin-default module with weight and bias entries holding nonzero
values. -/
def mEx : MState := ⟨.mixin, [("w", ⟨[2], [1, 2]⟩), ("b", ⟨[1], [3]⟩)]⟩

/-- A fresh mixin-default module of the same architecture as `mEx` (same
names and shapes), zero-initialized. -/
def freshEx : MState := ⟨.mixin, [("w", ⟨[2], [0, 0]⟩), ("b", ⟨[1], [0]⟩)]⟩

/-- A fan-out/fan-in composer whose registered child owns a weight: its
`state_dict()` holds the child's entry under a dotted path, while its own
`params` view is the empty override. -/
def fanEx : MState := ⟨.fanComposer, [("module0.weight", ⟨[2], [1, 2]⟩)]⟩

/-- A fresh composer of the same architecture as `fanEx`, zero-initialized. -/
def freshFan : MState := ⟨.fanComposer, [("module0.weight", ⟨[2], [0, 0]⟩)]⟩

/-- A distinct-input fan-out composer with two module children and no
constant children. -/
def mmiEx : List (FanItem Nat) := [.mod (fun x => x + 1), .mod (fun x => x * 2)]

theorem length_foldl_setNone (ks : List Nat) (l : List Dim) :
    (ks.foldl (fun acc k => acc.set k none) l).length = l.length := by
  induction ks generalizing l with
  | nil => rfl
  | cons k ks ih => rw [List.foldl_cons, ih, List.length_set]

theorem foldlM_pySetNone_ok (ks : List Nat) (l : List Dim) (h : ∀ k ∈ ks, k < l.length) :
    ks.foldlM pySetNone l = .ok (ks.foldl (fun acc k => acc.set k none) l) := by
  induction ks generalizing l with
  | nil => rfl
  | cons k ks ih =>
    have hk : k < l.length := h k (List.mem_cons_self k ks)
    rw [List.foldlM_cons, List.foldl_cons]
    have hset : pySetNone l k = .ok (l.set k none) := by simp [pySetNone, hk]
    rw [hset]
    show ks.foldlM pySetNone (l.set k none) = _
    exact ih (l.set k none) (fun j hj => by
      rw [List.length_set]
      exact h j (List.mem_cons_of_mem k hj))

theorem foldlM_pySetNone_err (ks : List Nat) (l : List Dim) (h : ∃ k ∈ ks, l.length ≤ k) :
    ks.foldlM pySetNone l = .error "IndexError" := by
  induction ks generalizing l with
  | nil =>
    obtain ⟨k, hk, _⟩ := h
    exact absurd hk (List.not_mem_nil k)
  | cons k ks ih =>
    rw [List.foldlM_cons]
    by_cases hk : k < l.length
    · have hset : pySetNone l k = .ok (l.set k none) := by simp [pySetNone, hk]
      rw [hset]
      show ks.foldlM pySetNone (l.set k none) = _
      apply ih
      obtain ⟨j, hj, hge⟩ := h
      rcases List.mem_cons.mp hj with rfl | hm
      · omega
      · exact ⟨j, hm, by rw [List.length_set]; exact hge⟩
    · have hset : pySetNone l k = .error "IndexError" := by simp [pySetNone, hk]
      rw [hset]
      rfl

theorem foldl_setNone_eq_map (ks : List Nat) (l : List Dim) :
    ks.foldl (fun acc k => acc.set k none) l
      = (List.range l.length).map (fun j => if j ∈ ks then none else l.getD j none) := by
  induction ks generalizing l with
  | nil =>
    apply List.ext_getElem
    · simp
    · intro n h1 h2
      have hn : n < l.length := by simpa using h1
      simp [List.getD_eq_getElem?_getD, List.getElem?_eq_getElem hn]
  | cons k ks ih =>
    rw [List.foldl_cons, ih, List.length_set]
    apply List.map_congr_left
    intro j hj
    rw [List.mem_range] at hj
    by_cases hjk : j ∈ ks
    · simp [hjk, List.mem_cons]
    · by_cases hje : j = k
      · subst hje
        have hset : (l.set j none)[j]? = some none := by
          rw [List.getElem?_set]
          simp [hj]
        simp [hset, List.mem_cons, hjk]
      · have hset : (l.set k none)[j]? = l[j]? := by
          rw [List.getElem?_set, if_neg (fun hc => hje hc.symm)]
        simp [hset, List.mem_cons, hjk, hje]

theorem mem_noneIndices (ishape : Shape) (j : Nat) :
    j ∈ noneIndices ishape ↔ isDynAt ishape j = true := by
  unfold noneIndices isDynAt
  rw [List.mem_filter, List.mem_range]
  constructor
  · rintro ⟨_, h⟩
    exact h
  · intro h
    refine ⟨?_, h⟩
    by_contra hlen
    push_neg at hlen
    rw [List.getD_eq_getElem?_getD, List.getElem?_eq_none hlen] at h
    simp at h

theorem range_map_eq_specOverwrite (ishape : Shape) (out : List Nat) :
    (List.range out.length).map
        (fun j => if j ∈ noneIndices ishape then none else (out.map some).getD j none)
      = specOverwrite ishape out := by
  unfold specOverwrite
  apply List.map_congr_left
  intro j hj
  rw [List.mem_range] at hj
  by_cases hd : isDynAt ishape j
  · simp [hd, mem_noneIndices]
  · have hget : out[j]? = some (out.get ⟨j, hj⟩) := by
      rw [List.getElem?_eq_getElem hj]
      rfl
    simp [hd, mem_noneIndices, hget]

theorem paramsOfList_filter (cs : List PMod) (p : Param → Bool) :
    (paramsOfList cs).filter p = cs.flatMap (fun c => (c.parameters).filter p) := by
  induction cs with
  | nil => simp [paramsOfList]
  | cons c cs ih => simp [paramsOfList, List.filter_append, ih]

theorem save_eq_stateDict (m : MState) (hm : m.kind = MKind.mixin) :
    m.save = m.stateDict := by
  obtain ⟨kd, sd⟩ := m
  change kd = MKind.mixin at hm
  subst hm
  simp [MState.save, MState.params, bulk_to_numpy, List.zip_map']

/-- C2: for every Lambda (and every type produced by the generic wrapper
factory, whose `output_shape` code is textually identical): if both the
declared input and output shapes are unknown the result is unknown; a
declared output shape is returned verbatim without executing; otherwise the
module executes on a scratch tensor whose shape replaces each dynamic input
dimension with 1, and the result's shape is returned with each dimension at
an index that was dynamic in the input overwritten by the dynamic marker. -/
theorem C2_lambda_shape_inference (m : LambdaM) : m.output_shape = specOutputShape m := by
  obtain ⟨f, is, ot⟩ := m
  cases is with
  | none =>
    cases ot with
    | none => rfl
    | some s => rfl
  | some ishape =>
    cases ot with
    | some s => rfl
    | none =>
      simp only [LambdaM.output_shape, specOutputShape]
      by_cases hall : (noneIndices ishape).all (fun k => k < (f (scratchShape ishape)).length) = true
      · rw [if_pos hall]
        rw [List.all_eq_true] at hall
        have hlt : ∀ k ∈ noneIndices ishape, k < ((f (scratchShape ishape)).map some).length := by
          intro k hk
          rw [List.length_map]
          simpa using hall k hk
        rw [foldlM_pySetNone_ok _ _ hlt, foldl_setNone_eq_map, List.length_map,
          range_map_eq_specOverwrite]
        rfl
      · rw [if_neg hall]
        have hex : ∃ k ∈ noneIndices ishape, ((f (scratchShape ishape)).map some).length ≤ k := by
          rw [List.all_eq_true] at hall
          push_neg at hall
          obtain ⟨k, hk, hlt⟩ := hall
          refine ⟨k, hk, ?_⟩
          rw [List.length_map]
          simpa using hlt
        rw [foldlM_pySetNone_err _ _ hex]
        rfl

/-- C1 counterexample: the claim says the default `trainable` view contains
only the module's own directly-owned trainable parameters and no
descendants', but on a parent owning no parameters whose only child owns one
trainable parameter, `trainable` returns that descendant parameter. -/
theorem C1_counterexample :
    PMod.trainable parentMod ≠ (parentMod.own_params).filter (fun p => p.requires_grad) := by
  simp [parentMod, childMod, leafParam, PMod.trainable, PMod.parameters, paramsOfList,
    PMod.own_params]

/-- C1 (amended): the default `trainable` view returns the module's own
directly-owned parameters (buffers excluded) whose gradient-tracking flag is
enabled, followed by each child subtree's trainable parameters recursively
in registration order — descendants are included, because the engine's
parameter enumeration recurses. The result does not depend on buffers. -/
theorem C1_trainable_includes_descendants (ps bs : List Param) (cs : List PMod) :
    PMod.trainable (.node ps bs cs)
      = ps.filter (fun p => p.requires_grad) ++ cs.flatMap (fun c => c.trainable) := by
  have hp : PMod.parameters (.node ps bs cs) = ps ++ paramsOfList cs := by
    simp [PMod.parameters]
  simp only [PMod.trainable, hp, List.filter_append, paramsOfList_filter]

/-- C3: every fan-out composer (same-input `MultiSingleInputModule`, whose
overrides the distinct-input `MultiMultiInputModule` inherits untouched) and
every fan-in/shared composer (`SingleMultiInputModule`) reports empty
`params`, `trainable` and `regularizable` at its own level, regardless of
the parameters its children hold. -/
theorem C3_composer_own_views_empty (a : MSIM) (b : SMIM) :
    a.params = [] ∧ a.trainable = [] ∧ a.regularizable = []
      ∧ b.params = [] ∧ b.trainable = [] ∧ b.regularizable = [] :=
  ⟨rfl, rfl, rfl, rfl, rfl, rfl⟩

/-- C4: slicing a `Sequential` composer (nonempty selection starting in
range) yields a new `Sequential` over the selected contiguous children whose
`input_shape` is the `input_shape` of the first selected child — the child
at index `start` of the parent — not the parent's own `input_shape`. -/
theorem C4_slice_input_shape (s : SeqM) (start stop : Nat)
    (h1 : start < s.children.length) (h2 : start < stop) :
    ∃ r, s.getitemSlice start stop = .ok r
      ∧ r.children = (s.children.drop start).take (stop - start)
      ∧ r.children.head? = some (s.children.get ⟨start, h1⟩)
      ∧ r.input_shape = (s.children.get ⟨start, h1⟩).input_shape := by
  obtain ⟨k, hk⟩ : ∃ k, stop - start = k + 1 := ⟨stop - start - 1, by omega⟩
  unfold SeqM.getitemSlice
  rw [List.drop_eq_getElem_cons h1]
  refine ⟨_, rfl, rfl, ?_, rfl⟩
  rw [hk, List.take_succ_cons]
  rfl

/-- C4 witness: slicing `seqEx[1:3]` selects the second and third children
and takes the second child's `input_shape`, not `seqEx`'s own. -/
theorem C4_witness :
    ∃ r, seqEx.getitemSlice 1 3 = .ok r
      ∧ r.children = (seqEx.children.drop 1).take (3 - 1)
      ∧ r.children.head? = some ⟨some [some 2], some [some 3]⟩
      ∧ r.input_shape = some [some 2] := by
  obtain ⟨r, ha, hb, hc, hd⟩ := C4_slice_input_shape seqEx 1 3 (by decide) (by decide)
  exact ⟨r, ha, hb, by rw [hc]; rfl, by rw [hd]; rfl⟩

/-- C5 counterexample: the round-trip law fails for "every module" — on a
fan-out/fan-in composer whose child owns a weight, `save` zips the
state-dict keys with the composer's overridden empty `params` view, so the
written mapping is empty, and `load` on a fresh composer of identical
architecture fails on the missing key, restoring nothing. -/
theorem C5_counterexample :
    fanEx.save = [] ∧ freshFan.load fanEx.save = .error "load mismatch" :=
  ⟨rfl, rfl⟩

/-- C5 (amended): for every module whose active `params` view is the
capability mixin's default (any module that does not override `params`; the
fan-out/fan-in composers do override it to the empty tuple), `save` followed
by `load` on a fresh module with identical architecture (same state names
and shapes) restores parameter and buffer values identical to those at save
time. -/
theorem C5_save_load_roundtrip (m fr : MState) (hm : m.kind = MKind.mixin)
    (hn : fr.stateDict.map Prod.fst = m.stateDict.map Prod.fst)
    (hs : fr.stateDict.map (fun e => e.2.shape) = m.stateDict.map (fun e => e.2.shape)) :
    fr.load m.save = .ok ⟨fr.kind, m.stateDict⟩ := by
  unfold MState.load loadStateDict
  rw [save_eq_stateDict m hm, if_pos ⟨hn, hs⟩]

/-- C5 witness: a zero-initialized fresh mixin-default module of the same
architecture as `mEx` recovers exactly the saved values. -/
theorem C5_witness :
    mEx.kind = MKind.mixin ∧ freshEx.load mEx.save = .ok ⟨MKind.mixin, mEx.stateDict⟩ :=
  ⟨rfl, C5_save_load_roundtrip mEx freshEx rfl rfl rfl⟩

/-- C6: a `Sequential` composer's `output_shape` is unknown when its own
declared `input_shape` is unknown; otherwise it is its own `input_shape`
when it has no children and the last child's `output_shape` otherwise. -/
theorem C6_sequential_output_shape (s : SeqM) :
    (s.input_shape = none → s.output_shape = none)
      ∧ (s.input_shape ≠ none → s.children = [] → s.output_shape = s.input_shape)
      ∧ (s.input_shape ≠ none → ∀ c, s.children.getLast? = some c →
          s.output_shape = c.output_shape) := by
  obtain ⟨cs, ish⟩ := s
  cases ish with
  | none =>
    exact ⟨fun _ => rfl, fun h _ => absurd rfl h, fun h _ _ => absurd rfl h⟩
  | some v =>
    refine ⟨fun h => Option.noConfusion h, fun _ hcs => ?_, fun _ c hc => ?_⟩
    · change cs = [] at hcs
      subst hcs
      rfl
    · change cs.getLast? = some c at hc
      show SeqM.output_shape ⟨cs, some v⟩ = c.output_shape
      simp [SeqM.output_shape, hc]

/-- C6 witness: the three cases at concrete composers — no children, three
children, and an unknown own input shape. -/
theorem C6_witness :
    SeqM.output_shape ⟨[], some [some 5]⟩ = some [some 5]
      ∧ SeqM.output_shape seqEx = some [some 4]
      ∧ SeqM.output_shape ⟨seqEx.children, none⟩ = none :=
  ⟨(C6_sequential_output_shape ⟨[], some [some 5]⟩).2.1 (by decide) rfl,
   (C6_sequential_output_shape seqEx).2.2 (by decide) ⟨some [some 3], some [some 4]⟩ rfl,
   (C6_sequential_output_shape ⟨seqEx.children, none⟩).1 rfl⟩

/-- C7: a same-input fan-out composer built from module children applies
every child to the same input and returns the per-child results in
construction order. -/
theorem C7_same_input_fanout {α : Type} (fs : List (α → α)) (x : α) :
    msiForward (fs.map FanItem.mod) x = fs.map (fun f => f x) := by
  simp [msiForward, List.map_map, FanItem.toChild]

/-- C8 counterexample: the claim says deriving `output_shape` by execution
leaves every persisted parameter and buffer unchanged, but on a wrapped unit
whose forward pass updates persisted state (as a normalization layer in
training mode updates its running statistics), the derivation keeps the
mutated state. -/
theorem C8_counterexample : (statefulWrapper.output_shape 0).2 ≠ 0 := by decide

/-- C8 (amended): for every module whose `output_shape` is derived by
executing on a scratch tensor and whose wrapped forward computation itself
leaves persisted state unchanged, the derivation leaves every persisted
parameter and buffer value unchanged — the derivation adds no mutation of
its own, but it runs the unit's forward pass and keeps any state change that
pass makes. -/
theorem C8_pure_forward_frame {σ : Type} (m : WrapperST σ) (st : σ)
    (h : ∀ x s0, (m.forward x s0).2 = s0) :
    (m.output_shape st).2 = st := by
  obtain ⟨is, ot, fw⟩ := m
  cases is with
  | none =>
    cases ot with
    | none => rfl
    | some s => rfl
  | some ishape =>
    cases ot with
    | some s => rfl
    | none =>
      show (fw (scratchShape ishape) st).2 = st
      exact h _ _

/-- C8 witness: a state-preserving wrapped unit with a dynamic input
dimension: the execution-based derivation leaves the state at 5. -/
theorem C8_witness : (pureWrapper.output_shape 5).2 = 5 :=
  C8_pure_forward_frame pureWrapper 5 (fun _ _ => rfl)

/-- C9: calling a distinct-input fan-out composer with fewer positional
inputs than it has non-constant children raises (the exhausted input
iterator's `StopIteration` escapes); no result is produced. -/
theorem C9_insufficient_inputs {α : Type} (items : List (FanItem α)) (inputs : List α)
    (h : inputs.length < countMods items) :
    mmiForward items inputs = .error "StopIteration" := by
  induction items generalizing inputs with
  | nil => simp [countMods] at h
  | cons it rest ih =>
    cases it with
    | mod f =>
      cases inputs with
      | nil => rfl
      | cons x xs =>
        have hx : xs.length < countMods rest := by
          simp [countMods, List.countP_cons] at h ⊢
          omega
        show (mmiForward rest xs).map (fun out => f x :: out) = _
        rw [ih xs hx]
        rfl
    | const t =>
      have hx : inputs.length < countMods rest := by
        simp [countMods, List.countP_cons] at h ⊢
        omega
      show (mmiForward rest inputs).map (fun out => t :: out) = _
      rw [ih inputs hx]
      rfl

/-- C9 witness: two module children and a single positional input fail with
`StopIteration`. -/
theorem C9_witness :
    ([4] : List Nat).length < countMods mmiEx
      ∧ mmiForward mmiEx [4] = .error "StopIteration" :=
  ⟨by decide, C9_insufficient_inputs mmiEx [4] (by decide)⟩

/-- C10: a `Sequential` composer with zero children returns its input
unchanged for any input and any extra arguments — the empty chain is the
identity. -/
theorem C10_empty_sequential_identity {α κ : Type} (x : α) (extra : κ) :
    seqForward ([] : List (α → κ → α)) x extra = x := rfl

end NNT

